import Mathlib

/-!
Verification of the mountstatus mount-monitoring daemon (src/main.rs).

The embedding models the core of the daemon: the MountStatus data model,
the check supervisor check_mount, the per-mountpoint state machine inside
the par_iter_mut closure of check_mounts (called advance here, following
the design document), the reconciliation of the registry against the
mount enumerator, and the aggregation counters computed in real_main.

Operating-system behaviour (process spawning, wait_timeout, try_wait,
the mount enumerator) is supplied as explicit environment data; the Rust
control flow over those results is translated directly. Side effects
(log lines, eprintln reports, the kill signal) are modelled as an event
trace so that claims about what is logged, killed or spawned are statable.
-/

set_option autoImplicit false

namespace MountStatusMonitor

/-- A mountpoint path; main.rs keys its HashMap by PathBuf, equality by value. -/
abbrev MountPath := String

/-- main.rs enum MountStatus. The exclusively owned process handle is
modelled by a numeric id, and the Instant start_time by a numeric
timestamp (seconds). -/
inductive MountStatus where
  | Alive : MountStatus
  | CheckFailed (code : Int) : MountStatus
  | CheckSignaled (signal : Int) : MountStatus
  | CheckRunning (process : Nat) (start_time : Nat) : MountStatus
  deriving DecidableEq, Repr

/-- main.rs impl MountStatus fn success: true exactly on Alive. -/
def MountStatus.success : MountStatus → Bool
  | .Alive => true
  | _ => false

/-- The observable data of an exited child process as read by check_mount:
exit_status.code() and exit_status.signal(). -/
structure ExitStatus where
  code : Option Int
  signal : Option Int
  deriving DecidableEq, Repr

/-- The behaviour the operating system exhibits during one run of
check_mount: the spawn can fail, wait_timeout can fail, the deadline can
elapse with the child still running (in which case the kill call can
itself fail, which only changes the reporting), or the child can exit
within the 3 second deadline. -/
inductive CheckEvent where
  | spawnFailure : CheckEvent
  | waitFailure (child : Nat) : CheckEvent
  | stillRunning (child : Nat) (killErr : Bool) : CheckEvent
  | exited (es : ExitStatus) : CheckEvent
  deriving DecidableEq, Repr

/-- Side effects of the supervisor and of the per-mountpoint worker, in
program order: process operations and the log or report lines of main.rs. -/
inductive Event where
  | spawn : Event
  | waitTimeout (secs : Nat) : Event
  | kill (child : Nat) : Event
  | reportKillError (child : Nat) : Event
  | logSlowCheckExited (elapsed : Nat) : Event
  | logSlowCheckNotExited (elapsed : Nat) : Event
  | logStalledCheckError (elapsed : Nat) : Event
  | reportCheckError : Event
  | reportUnexpectedReturnCode (rc : Int) : Event
  | reportKilledBySignal (signal : Int) : Event
  | logMountPassed : Event
  | reportMountFailed : Event
  | printBadMount : Event
  | logMountFailed : Event
  deriving DecidableEq, Repr

/-- main.rs fn check_mount: spawn /usr/bin/stat, wait with a 3 second
deadline; on deadline expiry kill the child without waiting for it and
keep its handle as CheckRunning; on exit map code 0 to Alive, a nonzero
code to CheckFailed, and an absent code to CheckSignaled with
signal().unwrap_or(0). Returns the Result together with the event trace. -/
def check_mount (now : Nat) (ev : CheckEvent) : Except String MountStatus × List Event :=
  match ev with
  | .spawnFailure =>
      (.error "Unable to spawn process to check mount", [.spawn])
  | .waitFailure _child =>
      (.error "Unable to wait on stat command", [.spawn, .waitTimeout 3])
  | .stillRunning child killErr =>
      (.ok (.CheckRunning child now),
        [.spawn, .waitTimeout 3, .kill child]
          ++ (if killErr then [.reportKillError child] else []))
  | .exited es =>
      let status :=
        match es.code with
        | some rc => if rc = 0 then MountStatus.Alive else MountStatus.CheckFailed rc
        | none => MountStatus.CheckSignaled (es.signal.getD 0)
      (.ok status, [.spawn, .waitTimeout 3])

/-- Result of the non-blocking process.try_wait() query performed by
check_mounts on a CheckRunning entry: Ok(Some(status)), Ok(None), Err(e). -/
inductive TryWaitResult where
  | exited (es : ExitStatus) : TryWaitResult
  | stillRunning : TryWaitResult
  | queryError (msg : String) : TryWaitResult
  deriving DecidableEq, Repr

/-- The environment one per-mountpoint worker observes during a tick:
the try_wait result for a pre-existing child (consulted only when the
status is CheckRunning), the operating-system behaviour of the fresh
check_mount run, and the current time. -/
structure MountEnv where
  tryWait : TryWaitResult
  checkEvent : CheckEvent
  now : Nat

/-- The reporting block of check_mounts once a new status is in hand
(main.rs lines 278 to 296): eprintln for unexpected return codes and
signals, then a debug line on success or error reporting (and optionally
a println of the path) on failure. -/
def statusReports (print_bad_mounts : Bool) (new_mount_status : MountStatus) : List Event :=
  (match new_mount_status with
    | .CheckFailed rc => [Event.reportUnexpectedReturnCode rc]
    | .CheckSignaled signal => [Event.reportKilledBySignal signal]
    | _ => []) ++
  (if new_mount_status.success then
     [Event.logMountPassed]
   else
     [Event.reportMountFailed]
       ++ (if print_bad_mounts then [Event.printBadMount] else [])
       ++ [Event.logMountFailed])

/-- main.rs lines 270 to 298: run check_mount; on Err report the error and
leave the entry untouched (early return before the write-back), otherwise
report on the new status and write it back. -/
def runNewCheck (print_bad_mounts : Bool) (env : MountEnv) (old : MountStatus)
    (evs : List Event) : MountStatus × List Event :=
  match check_mount env.now env.checkEvent with
  | (.error _e, cevs) => (old, evs ++ cevs ++ [Event.reportCheckError])
  | (.ok new_mount_status, cevs) =>
      (new_mount_status, evs ++ cevs ++ statusReports print_bad_mounts new_mount_status)

/-- The body of the par_iter_mut closure in check_mounts (main.rs lines
237 to 299), the per-mountpoint state machine of the design document:
a CheckRunning entry first polls its old child with try_wait and, when it
has not exited, logs a warning and returns with the entry untouched;
otherwise (old child exited, query error, or any non-CheckRunning status)
a fresh check is run. -/
def advance (print_bad_mounts : Bool) (env : MountEnv) (mount_status : MountStatus) :
    MountStatus × List Event :=
  match mount_status with
  | .CheckRunning _process start_time =>
    match env.tryWait with
    | .exited _st =>
        runNewCheck print_bad_mounts env mount_status
          [Event.logSlowCheckExited (env.now - start_time)]
    | .stillRunning =>
        (mount_status, [Event.logSlowCheckNotExited (env.now - start_time)])
    | .queryError _msg =>
        runNewCheck print_bad_mounts env mount_status
          [Event.logStalledCheckError (env.now - start_time)]
  | _ => runNewCheck print_bad_mounts env mount_status []

/-- The registry: the HashMap from mountpoint to MountStatus of real_main,
modelled as an association list (first match wins on lookup; the Rust map
never holds duplicate keys). -/
abbrev Registry := List (MountPath × MountStatus)

/-- HashMap key membership. -/
def containsKey (reg : Registry) (p : MountPath) : Bool :=
  reg.any (fun e => decide (e.1 = p))

/-- HashMap get by key. -/
def lookup (reg : Registry) (p : MountPath) : Option MountStatus :=
  (reg.find? (fun e => decide (e.1 = p))).map (fun e => e.2)

/-- mount_statuses.entry(mount_point).or_insert(MountStatus::Alive). -/
def insertDefault (reg : Registry) (p : MountPath) : Registry :=
  if containsKey reg p then reg else reg ++ [(p, MountStatus.Alive)]

/-- The reconciliation step of check_mounts (main.rs lines 226 to 233):
retain only the entries whose key is in the fresh mount list, then insert
a default Alive entry for every newly observed mountpoint. -/
def reconcile_mounts (mount_points : List MountPath) (reg : Registry) : Registry :=
  mount_points.foldl insertDefault
    (reg.filter (fun e => decide (e.1 ∈ mount_points)))

/-- The tick environment: the mount enumerator result and the per-path
worker environments.

Modelled from the spec: the Mount Enumerator collaborator, listMounts()
returning Result of Set of Path or Error. The Result-returning
get_mount_points that check_mounts unwraps is not present under src in a
form matching its caller (the get_mounts files there return a bare Vec),
so the enumerator is modelled as this abstract Except-valued input,
faithful to the spec contract. -/
structure TickEnv where
  mounts : Except String (List MountPath)
  perMount : MountPath → MountEnv

/-- Outcome of one tick: either the process exits fatally (std::process::exit)
after reporting, or the updated registry. -/
inductive TickOutcome where
  | fatalExit (code : Nat) (report : String) : TickOutcome
  | ok (reg : Registry) : TickOutcome
  deriving Repr

/-- main.rs fn check_mounts: ask the enumerator for mount_points, exiting
the process with code 2 after an eprintln if that fails; reconcile the
registry key set; then fan out over the entries, each one advanced by the
per-mountpoint state machine. -/
def check_mounts (env : TickEnv) (print_bad_mounts : Bool)
    (mount_statuses : Registry) : TickOutcome :=
  match env.mounts with
  | .error err =>
      .fatalExit 2 ("Failed to retrieve a list of mount-points: " ++ err)
  | .ok mount_points =>
      let reconciled := reconcile_mounts mount_points mount_statuses
      .ok (reconciled.map
        (fun e => (e.1, (advance print_bad_mounts (env.perMount e.1) e.2).1)))

/-- real_main: total_mounts = mount_statuses.len(), recomputed each tick. -/
def total_mounts (mount_statuses : Registry) : Nat :=
  mount_statuses.length

/-- real_main: dead_mounts = the count of entries whose status is not a
success, recomputed each tick. -/
def dead_mounts (mount_statuses : Registry) : Nat :=
  (mount_statuses.filter (fun e => !(e.2.success))).length

example : (check_mount 7 (.exited ⟨some 0, none⟩)).1 = .ok .Alive := rfl
example : (check_mount 7 (.exited ⟨some 5, none⟩)).1 = .ok (.CheckFailed 5) := rfl
example : (check_mount 7 (.exited ⟨none, some 9⟩)).1 = .ok (.CheckSignaled 9) := rfl
example : (check_mount 7 (.stillRunning 41 false)).1 = .ok (.CheckRunning 41 7) := rfl
example :
    reconcile_mounts ["/", "/mnt/a"] [("/", .Alive), ("/gone", .CheckFailed 1)]
      = [("/", .Alive), ("/mnt/a", .Alive)] := by decide
example : dead_mounts [("/", .Alive), ("/mnt/a", .CheckRunning 3 0)] = 1 := by decide

/-! Helper lemmas about registry lookup, reconciliation and the fan-out. -/

theorem lookup_nil (p : MountPath) : lookup [] p = none := rfl

theorem lookup_cons (e : MountPath × MountStatus) (reg : Registry) (p : MountPath) :
    lookup (e :: reg) p = if e.1 = p then some e.2 else lookup reg p := by
  by_cases h : e.1 = p
  · rw [if_pos h]
    unfold lookup
    rw [List.find?_cons_of_pos _ (by simp [h])]
    rfl
  · rw [if_neg h]
    unfold lookup
    rw [List.find?_cons_of_neg _ (by simp [h])]

theorem lookup_append_of_some (reg l : Registry) (p : MountPath) (v : MountStatus)
    (h : lookup reg p = some v) : lookup (reg ++ l) p = some v := by
  induction reg with
  | nil => rw [lookup_nil] at h; cases h
  | cons e rest ih =>
    rw [List.cons_append, lookup_cons]
    rw [lookup_cons] at h
    by_cases he : e.1 = p
    · rw [if_pos he] at h ⊢; exact h
    · rw [if_neg he] at h ⊢; exact ih h

theorem lookup_append_of_none (reg l : Registry) (p : MountPath)
    (h : lookup reg p = none) : lookup (reg ++ l) p = lookup l p := by
  induction reg with
  | nil => rfl
  | cons e rest ih =>
    rw [List.cons_append, lookup_cons]
    rw [lookup_cons] at h
    by_cases he : e.1 = p
    · rw [if_pos he] at h; cases h
    · rw [if_neg he] at h ⊢; exact ih h

theorem containsKey_eq_false_iff (reg : Registry) (p : MountPath) :
    containsKey reg p = false ↔ lookup reg p = none := by
  unfold containsKey lookup
  constructor
  · intro h
    rw [List.find?_eq_none.mpr]
    · rfl
    · intro e he
      intro hdec
      have : reg.any (fun e => decide (e.1 = p)) = true :=
        List.any_eq_true.mpr ⟨e, he, hdec⟩
      rw [h] at this
      cases this
  · intro h
    by_contra hne
    have hany : reg.any (fun e => decide (e.1 = p)) = true := by
      cases hb : reg.any (fun e => decide (e.1 = p)) with
      | true => rfl
      | false => exact absurd hb hne
    rcases List.any_eq_true.mp hany with ⟨e, he, hdec⟩
    have : reg.find? (fun e => decide (e.1 = p)) = none := by
      cases hf : reg.find? (fun e => decide (e.1 = p)) with
      | none => rfl
      | some x => rw [hf] at h; cases h
    rcases List.find?_eq_none.mp this e he hdec

theorem lookup_insertDefault_of_some (reg : Registry) (p q : MountPath) (v : MountStatus)
    (h : lookup reg p = some v) : lookup (insertDefault reg q) p = some v := by
  unfold insertDefault
  split
  · exact h
  · exact lookup_append_of_some _ _ _ _ h

theorem lookup_insertDefault_of_ne (reg : Registry) (p q : MountPath) (hne : q ≠ p) :
    lookup (insertDefault reg q) p = lookup reg p := by
  unfold insertDefault
  split
  · rfl
  · cases hl : lookup reg p with
    | some v => exact lookup_append_of_some _ _ _ _ hl
    | none =>
      rw [lookup_append_of_none _ _ _ hl, lookup_cons, if_neg hne, lookup_nil]

theorem lookup_insertDefault_self_of_none (reg : Registry) (q : MountPath)
    (h : lookup reg q = none) :
    lookup (insertDefault reg q) q = some MountStatus.Alive := by
  unfold insertDefault
  rw [if_neg (by rw [Bool.not_eq_true, containsKey_eq_false_iff]; exact h)]
  rw [lookup_append_of_none _ _ _ h, lookup_cons, if_pos rfl]

theorem lookup_foldl_insertDefault_of_some (l : List MountPath) (p : MountPath)
    (v : MountStatus) :
    ∀ acc : Registry, lookup acc p = some v →
      lookup (l.foldl insertDefault acc) p = some v := by
  induction l with
  | nil => intro acc h; exact h
  | cons q rest ih =>
    intro acc h
    simp only [List.foldl_cons]
    exact ih _ (lookup_insertDefault_of_some _ _ _ _ h)

theorem lookup_foldl_insertDefault_mem (l : List MountPath) (p : MountPath) :
    ∀ acc : Registry, p ∈ l → lookup acc p = none →
      lookup (l.foldl insertDefault acc) p = some MountStatus.Alive := by
  induction l with
  | nil => intro acc hmem _; cases hmem
  | cons q rest ih =>
    intro acc hmem h
    simp only [List.foldl_cons]
    by_cases hq : q = p
    · subst hq
      exact lookup_foldl_insertDefault_of_some _ _ _ _
        (lookup_insertDefault_self_of_none _ _ h)
    · have h1 : p ∈ rest := by
        rcases List.mem_cons.mp hmem with h1 | h1
        · exact absurd h1.symm hq
        · exact h1
      exact ih _ h1 (by rw [lookup_insertDefault_of_ne _ _ _ hq]; exact h)

theorem lookup_filter_mem (reg : Registry) (mount_points : List MountPath) (p : MountPath)
    (hmem : p ∈ mount_points) :
    lookup (reg.filter (fun e => decide (e.1 ∈ mount_points))) p = lookup reg p := by
  induction reg with
  | nil => rfl
  | cons e rest ih =>
    by_cases he : e.1 = p
    · have hk : e.1 ∈ mount_points := he ▸ hmem
      rw [List.filter_cons_of_pos (by simp [hk]), lookup_cons, lookup_cons,
        if_pos he, if_pos he]
    · by_cases hk : e.1 ∈ mount_points
      · rw [List.filter_cons_of_pos (by simp [hk]), lookup_cons, lookup_cons,
          if_neg he, if_neg he, ih]
      · rw [List.filter_cons_of_neg (by simp [hk]), lookup_cons, if_neg he, ih]

theorem mem_foldl_insertDefault (l : List MountPath) :
    ∀ (acc : Registry) (e : MountPath × MountStatus),
      e ∈ l.foldl insertDefault acc → e ∈ acc ∨ e.1 ∈ l := by
  induction l with
  | nil => intro acc e h; exact Or.inl h
  | cons q rest ih =>
    intro acc e h
    simp only [List.foldl_cons] at h
    rcases ih _ _ h with h1 | h1
    · unfold insertDefault at h1
      split at h1
      · exact Or.inl h1
      · rcases List.mem_append.mp h1 with h2 | h2
        · exact Or.inl h2
        · simp only [List.mem_singleton] at h2
          right
          rw [h2]
          exact List.mem_cons_self _ _
    · exact Or.inr (List.mem_cons_of_mem _ h1)

theorem lookup_eq_none_of_keys (reg : Registry) (p : MountPath)
    (h : ∀ e ∈ reg, e.1 ≠ p) : lookup reg p = none := by
  unfold lookup
  rw [List.find?_eq_none.mpr]
  · rfl
  · intro e he
    simp [h e he]

theorem lookup_reconcile_mounts_of_not_mem (mount_points : List MountPath) (reg : Registry)
    (p : MountPath) (hp : p ∉ mount_points) :
    lookup (reconcile_mounts mount_points reg) p = none := by
  apply lookup_eq_none_of_keys
  intro e he hep
  rcases mem_foldl_insertDefault mount_points _ e he with h1 | h1
  · have h2 := (List.mem_filter.mp h1).2
    simp only [decide_eq_true_eq] at h2
    exact hp (hep ▸ h2)
  · exact hp (hep ▸ h1)

theorem lookup_reconcile_mounts_of_some (mount_points : List MountPath) (reg : Registry)
    (p : MountPath) (v : MountStatus) (hmem : p ∈ mount_points)
    (h : lookup reg p = some v) :
    lookup (reconcile_mounts mount_points reg) p = some v := by
  unfold reconcile_mounts
  apply lookup_foldl_insertDefault_of_some
  rw [lookup_filter_mem reg mount_points p hmem]
  exact h

theorem lookup_reconcile_mounts_new (mount_points : List MountPath) (reg : Registry)
    (p : MountPath) (hmem : p ∈ mount_points) (h : lookup reg p = none) :
    lookup (reconcile_mounts mount_points reg) p = some MountStatus.Alive := by
  unfold reconcile_mounts
  apply lookup_foldl_insertDefault_mem _ _ _ hmem
  rw [lookup_filter_mem reg mount_points p hmem]
  exact h

theorem lookup_map_entries (f : MountPath → MountStatus → MountStatus) (reg : Registry)
    (p : MountPath) :
    lookup (reg.map (fun e => (e.1, f e.1 e.2))) p = (lookup reg p).map (f p) := by
  induction reg with
  | nil => rfl
  | cons e rest ih =>
    simp only [List.map_cons]
    rw [lookup_cons, lookup_cons]
    by_cases he : e.1 = p
    · rw [if_pos he, if_pos he]
      subst he
      rfl
    · rw [if_neg he, if_neg he, ih]

theorem spawn_mem_check_mount (now : Nat) (ev : CheckEvent) :
    Event.spawn ∈ (check_mount now ev).2 := by
  cases ev <;> simp [check_mount]

theorem check_mounts_ok_eq (env : TickEnv) (pb : Bool) (reg : Registry)
    (mount_points : List MountPath) (h : env.mounts = .ok mount_points) :
    check_mounts env pb reg
      = .ok ((reconcile_mounts mount_points reg).map
          (fun e => (e.1, (advance pb (env.perMount e.1) e.2).1))) := by
  unfold check_mounts
  rw [h]

theorem lookup_fanout (pb : Bool) (pm : MountPath → MountEnv) (reg : Registry)
    (p : MountPath) :
    lookup (reg.map (fun e => (e.1, (advance pb (pm e.1) e.2).1))) p
      = (lookup reg p).map (fun v => (advance pb (pm p) v).1) :=
  lookup_map_entries (fun q v => (advance pb (pm q) v).1) reg p

theorem runNewCheck_spawn_failure (pb : Bool) (env : MountEnv) (old : MountStatus)
    (evs : List Event) (henv : env.checkEvent = CheckEvent.spawnFailure) :
    runNewCheck pb env old evs
      = (old, evs ++ [Event.spawn] ++ [Event.reportCheckError]) := by
  unfold runNewCheck
  rw [henv]
  rfl

/-! The claims. -/

/-- C2: when the check process exits within the 3 second deadline, exit
code 0 yields Alive, exit code N with N nonzero yields CheckFailed N, and
termination without an exit code by signal S yields CheckSignaled S. -/
theorem check_mount_exit_code_mapping (now : Nat) (es : ExitStatus) :
    (es.code = some 0 → (check_mount now (.exited es)).1 = .ok MountStatus.Alive)
    ∧ (∀ n : Int, es.code = some n → n ≠ 0 →
        (check_mount now (.exited es)).1 = .ok (MountStatus.CheckFailed n))
    ∧ (∀ s : Int, es.code = none → es.signal = some s →
        (check_mount now (.exited es)).1 = .ok (MountStatus.CheckSignaled s)) := by
  refine ⟨?_, ?_, ?_⟩
  · intro h
    simp [check_mount, h]
  · intro n h hn
    simp [check_mount, h, hn]
  · intro s h hs
    simp [check_mount, h, hs]

theorem check_mount_exit_code_mapping_witness :
    (check_mount 7 (.exited ⟨some 0, none⟩)).1 = .ok MountStatus.Alive
    ∧ (check_mount 7 (.exited ⟨some 5, none⟩)).1 = .ok (MountStatus.CheckFailed 5)
    ∧ (check_mount 7 (.exited ⟨none, some 9⟩)).1 = .ok (MountStatus.CheckSignaled 9) :=
  ⟨(check_mount_exit_code_mapping 7 ⟨some 0, none⟩).1 rfl,
   (check_mount_exit_code_mapping 7 ⟨some 5, none⟩).2.1 5 rfl (by decide),
   (check_mount_exit_code_mapping 7 ⟨none, some 9⟩).2.2 9 rfl rfl⟩

/-- C3: when the 3 second deadline elapses with the check process still
running, check_mount sends exactly one kill to the child, returns
CheckRunning with the original child handle and the launch time, the only
wait it performs is the bounded 3 second wait, and no wait of any kind
follows the kill (the full event trace is exhibited). -/
theorem check_mount_deadline_kill_and_keep_handle (now child : Nat) (killErr : Bool) :
    check_mount now (.stillRunning child killErr)
      = (.ok (.CheckRunning child now),
         [Event.spawn, Event.waitTimeout 3, Event.kill child]
           ++ (if killErr then [Event.reportKillError child] else []))
    ∧ Event.kill child ∈ (check_mount now (.stillRunning child killErr)).2
    ∧ (∀ secs, Event.waitTimeout secs ∈ (check_mount now (.stillRunning child killErr)).2
        → secs = 3) := by
  refine ⟨rfl, by simp [check_mount], ?_⟩
  intro secs hmem
  cases killErr <;> simp [check_mount] at hmem <;> exact hmem

theorem check_mount_deadline_kill_witness :
    check_mount 7 (.stillRunning 41 false)
      = (.ok (.CheckRunning 41 7), [Event.spawn, Event.waitTimeout 3, Event.kill 41])
    ∧ (3 : Nat) = 3 :=
  ⟨by
    have h := (check_mount_deadline_kill_and_keep_handle 7 41 false).1
    simpa using h,
   (check_mount_deadline_kill_and_keep_handle 7 41 false).2.2 3 (by simp [check_mount])⟩

/-- C4: after the reconciliation step of a tick, a previously known path
that is absent from the fresh mount list is no longer a registry key, and
a fresh path that was not yet a key is present with the initial status
Alive, before any check of the tick runs on it. -/
theorem check_mounts_reconciliation (mount_points : List MountPath) (reg : Registry)
    (p : MountPath) :
    (p ∉ mount_points → lookup (reconcile_mounts mount_points reg) p = none)
    ∧ (p ∈ mount_points → lookup reg p = none →
        lookup (reconcile_mounts mount_points reg) p = some MountStatus.Alive) :=
  ⟨fun hp => lookup_reconcile_mounts_of_not_mem mount_points reg p hp,
   fun hmem h => lookup_reconcile_mounts_new mount_points reg p hmem h⟩

theorem check_mounts_reconciliation_witness :
    lookup (reconcile_mounts ["/", "/mnt/a"]
      [("/", MountStatus.Alive), ("/gone", MountStatus.CheckFailed 1)]) "/gone" = none
    ∧ lookup (reconcile_mounts ["/", "/mnt/a"]
      [("/", MountStatus.Alive), ("/gone", MountStatus.CheckFailed 1)]) "/mnt/a"
        = some MountStatus.Alive :=
  ⟨(check_mounts_reconciliation ["/", "/mnt/a"] _ "/gone").1 (by decide),
   (check_mounts_reconciliation ["/", "/mnt/a"] _ "/mnt/a").2 (by decide) (by decide)⟩

/-- C5: the reported pair is recomputed fresh from the registry each tick:
total_mounts is exactly the number of entries and dead_mounts is exactly
the number of entries whose status is not Alive; success holds only on
Alive, so CheckFailed, CheckSignaled and CheckRunning all count as dead. -/
theorem tick_aggregation_counts (reg : Registry) :
    total_mounts reg = reg.length
    ∧ dead_mounts reg
        = (reg.filter (fun e => decide (e.2 ≠ MountStatus.Alive))).length
    ∧ (∀ s : MountStatus, s.success = false ↔ s ≠ MountStatus.Alive) := by
  refine ⟨rfl, ?_, ?_⟩
  · have hfun : (fun e : MountPath × MountStatus => !(e.2.success))
        = (fun e => decide (e.2 ≠ MountStatus.Alive)) := by
      funext e
      rcases e with ⟨q, s⟩
      cases s <;> rfl
    rw [dead_mounts, hfun]
  · intro s
    cases s <;> simp [MountStatus.success]

theorem tick_aggregation_counts_witness :
    total_mounts [("/", MountStatus.Alive), ("/mnt/a", MountStatus.CheckRunning 3 0)] = 2
    ∧ dead_mounts [("/", MountStatus.Alive), ("/mnt/a", MountStatus.CheckRunning 3 0)] = 1 :=
  ⟨(tick_aggregation_counts
      [("/", MountStatus.Alive), ("/mnt/a", MountStatus.CheckRunning 3 0)]).1,
   by
    have h := (tick_aggregation_counts
      [("/", MountStatus.Alive), ("/mnt/a", MountStatus.CheckRunning 3 0)]).2.1
    rw [h]
    decide⟩

/-- C6: when the mount enumerator fails, the tick terminates the whole
process with exit code 2 carrying the error report, and never produces an
updated registry from a partial or stale mount list. -/
theorem check_mounts_fatal_exit_on_enumeration_failure
    (env : TickEnv) (print_bad_mounts : Bool) (reg : Registry) (err : String)
    (h : env.mounts = .error err) :
    check_mounts env print_bad_mounts reg
      = .fatalExit 2 ("Failed to retrieve a list of mount-points: " ++ err)
    ∧ ∀ r : Registry, check_mounts env print_bad_mounts reg ≠ .ok r := by
  have he : check_mounts env print_bad_mounts reg
      = .fatalExit 2 ("Failed to retrieve a list of mount-points: " ++ err) := by
    unfold check_mounts
    rw [h]
  refine ⟨he, fun r hr => ?_⟩
  rw [he] at hr
  exact TickOutcome.noConfusion hr

theorem check_mounts_fatal_exit_witness :
    check_mounts ⟨.error "boom", fun _ => ⟨.stillRunning, .spawnFailure, 0⟩⟩ false []
      = .fatalExit 2 ("Failed to retrieve a list of mount-points: " ++ "boom") :=
  (check_mounts_fatal_exit_on_enumeration_failure
    ⟨.error "boom", fun _ => ⟨.stillRunning, .spawnFailure, 0⟩⟩ false [] "boom" rfl).1

/-- C10: reconciliation never overwrites a surviving entry: a path present
in the registry and still in the fresh mount list keeps exactly its prior
status when it enters the fan-out phase, and the insert-with-default step
is the identity on registries already containing the key. -/
theorem reconcile_preserves_surviving_entries (mount_points : List MountPath)
    (reg : Registry) (p : MountPath) (v : MountStatus)
    (hmem : p ∈ mount_points) (hl : lookup reg p = some v) :
    lookup (reconcile_mounts mount_points reg) p = some v
    ∧ (∀ (r : Registry) (q : MountPath), containsKey r q = true →
        insertDefault r q = r) := by
  refine ⟨lookup_reconcile_mounts_of_some _ _ _ _ hmem hl, ?_⟩
  intro r q hq
  unfold insertDefault
  rw [if_pos hq]

theorem reconcile_preserves_surviving_entries_witness :
    lookup (reconcile_mounts ["/", "/mnt/a"]
      [("/", MountStatus.Alive), ("/mnt/a", MountStatus.CheckRunning 41 2)]) "/mnt/a"
      = some (MountStatus.CheckRunning 41 2) :=
  (reconcile_preserves_surviving_entries ["/", "/mnt/a"]
    [("/", MountStatus.Alive), ("/mnt/a", MountStatus.CheckRunning 41 2)]
    "/mnt/a" (MountStatus.CheckRunning 41 2) (by decide) (by decide)).1

/-- C1: a CheckRunning mountpoint whose non-blocking try_wait reports the
child has not yet exited is left with exactly its old status (same handle,
same start_time), only a warning with the elapsed time happens, no spawn
happens for it this cycle, and at the registry level the tick keeps its
entry unchanged, so this branch never creates a second live handle for
the path. -/
theorem advance_still_running_leaves_status_unchanged
    (print_bad_mounts : Bool) (env : MountEnv) (process start_time : Nat)
    (h : env.tryWait = TryWaitResult.stillRunning) :
    advance print_bad_mounts env (.CheckRunning process start_time)
      = (.CheckRunning process start_time,
         [Event.logSlowCheckNotExited (env.now - start_time)])
    ∧ Event.spawn ∉ (advance print_bad_mounts env (.CheckRunning process start_time)).2
    ∧ (∀ (tenv : TickEnv) (reg : Registry) (mount_points : List MountPath)
         (p : MountPath) (r : Registry),
        tenv.mounts = .ok mount_points → tenv.perMount p = env →
        check_mounts tenv print_bad_mounts reg = .ok r →
        lookup reg p = some (.CheckRunning process start_time) →
        p ∈ mount_points →
        lookup r p = some (.CheckRunning process start_time)) := by
  have hadv : advance print_bad_mounts env (.CheckRunning process start_time)
      = (.CheckRunning process start_time,
         [Event.logSlowCheckNotExited (env.now - start_time)]) := by
    unfold advance
    rw [h]
  refine ⟨hadv, ?_, ?_⟩
  · rw [hadv]
    simp
  · intro tenv reg mount_points p r hm hp hok hlook hmem
    rw [check_mounts_ok_eq tenv print_bad_mounts reg mount_points hm] at hok
    injection hok with hr
    subst hr
    rw [lookup_fanout]
    rw [lookup_reconcile_mounts_of_some mount_points reg p _ hmem hlook]
    rw [hp]
    simp [hadv]

theorem advance_still_running_witness :
    advance false ⟨.stillRunning, .exited ⟨some 0, none⟩, 10⟩ (.CheckRunning 41 2)
      = (.CheckRunning 41 2, [Event.logSlowCheckNotExited 8]) :=
  (advance_still_running_leaves_status_unchanged false
    ⟨.stillRunning, .exited ⟨some 0, none⟩, 10⟩ 41 2 rfl).1

/-- C7: a CheckRunning mountpoint whose try_wait reports the old child has
exited logs the completion with its elapsed time, spawns a fresh check in
the same tick, and adopts the fresh check outcome as the new status. -/
theorem advance_relaunches_after_old_check_exited
    (print_bad_mounts : Bool) (env : MountEnv) (process start_time : Nat)
    (es : ExitStatus) (snew : MountStatus)
    (h : env.tryWait = TryWaitResult.exited es)
    (hc : (check_mount env.now env.checkEvent).1 = .ok snew) :
    (advance print_bad_mounts env (.CheckRunning process start_time)).1 = snew
    ∧ Event.logSlowCheckExited (env.now - start_time)
        ∈ (advance print_bad_mounts env (.CheckRunning process start_time)).2
    ∧ Event.spawn ∈ (advance print_bad_mounts env (.CheckRunning process start_time)).2 := by
  have hspawn0 := spawn_mem_check_mount env.now env.checkEvent
  rcases hcm : check_mount env.now env.checkEvent with ⟨res, cevs⟩
  rw [hcm] at hc hspawn0
  simp only at hc hspawn0
  subst hc
  unfold advance
  rw [h]
  unfold runNewCheck
  rw [hcm]
  refine ⟨rfl, by simp, by simp [hspawn0]⟩

theorem advance_relaunch_witness :
    (advance false ⟨.exited ⟨some 3, none⟩, .exited ⟨some 0, none⟩, 10⟩
        (.CheckRunning 41 2)).1 = MountStatus.Alive :=
  (advance_relaunches_after_old_check_exited false
    ⟨.exited ⟨some 3, none⟩, .exited ⟨some 0, none⟩, 10⟩ 41 2
    ⟨some 3, none⟩ MountStatus.Alive rfl rfl).1

/-- C8: a spawn failure is local: the error is reported and the entry
keeps exactly its prior status; a tick whose enumeration succeeded always
produces a registry (no abort), and the entry a path receives depends
only on the reconciled registry and on the environment of that same path,
never on the environment (and hence the failures) of other paths. -/
theorem spawn_failure_is_local_and_contained
    (print_bad_mounts : Bool) (env : MountEnv) (mount_status : MountStatus)
    (henv : env.checkEvent = CheckEvent.spawnFailure)
    (hrun : ∀ process start_time, mount_status = .CheckRunning process start_time →
        env.tryWait ≠ TryWaitResult.stillRunning) :
    (advance print_bad_mounts env mount_status).1 = mount_status
    ∧ Event.reportCheckError ∈ (advance print_bad_mounts env mount_status).2
    ∧ (∀ (tenv : TickEnv) (reg : Registry) (mount_points : List MountPath),
        tenv.mounts = .ok mount_points →
        ∃ r : Registry, check_mounts tenv print_bad_mounts reg = .ok r)
    ∧ (∀ (tenv1 tenv2 : TickEnv) (reg : Registry) (mount_points : List MountPath)
         (p : MountPath) (r1 r2 : Registry),
        tenv1.mounts = .ok mount_points → tenv2.mounts = .ok mount_points →
        tenv1.perMount p = tenv2.perMount p →
        check_mounts tenv1 print_bad_mounts reg = .ok r1 →
        check_mounts tenv2 print_bad_mounts reg = .ok r2 →
        lookup r1 p = lookup r2 p) := by
  have hlocal : (advance print_bad_mounts env mount_status).1 = mount_status
      ∧ Event.reportCheckError ∈ (advance print_bad_mounts env mount_status).2 := by
    cases hst : mount_status with
    | CheckRunning process start_time =>
      cases htw : env.tryWait with
      | exited es =>
        have h1 : advance print_bad_mounts env (MountStatus.CheckRunning process start_time)
            = runNewCheck print_bad_mounts env (MountStatus.CheckRunning process start_time)
                [Event.logSlowCheckExited (env.now - start_time)] := by
          unfold advance
          rw [htw]
        rw [h1, runNewCheck_spawn_failure print_bad_mounts env _ _ henv]
        exact ⟨rfl, by simp⟩
      | stillRunning => exact absurd htw (hrun process start_time hst)
      | queryError msg =>
        have h1 : advance print_bad_mounts env (MountStatus.CheckRunning process start_time)
            = runNewCheck print_bad_mounts env (MountStatus.CheckRunning process start_time)
                [Event.logStalledCheckError (env.now - start_time)] := by
          unfold advance
          rw [htw]
        rw [h1, runNewCheck_spawn_failure print_bad_mounts env _ _ henv]
        exact ⟨rfl, by simp⟩
    | Alive =>
      have h1 : advance print_bad_mounts env MountStatus.Alive
          = runNewCheck print_bad_mounts env MountStatus.Alive [] := rfl
      rw [h1, runNewCheck_spawn_failure print_bad_mounts env _ _ henv]
      exact ⟨rfl, by simp⟩
    | CheckFailed code =>
      have h1 : advance print_bad_mounts env (MountStatus.CheckFailed code)
          = runNewCheck print_bad_mounts env (MountStatus.CheckFailed code) [] := rfl
      rw [h1, runNewCheck_spawn_failure print_bad_mounts env _ _ henv]
      exact ⟨rfl, by simp⟩
    | CheckSignaled signal =>
      have h1 : advance print_bad_mounts env (MountStatus.CheckSignaled signal)
          = runNewCheck print_bad_mounts env (MountStatus.CheckSignaled signal) [] := rfl
      rw [h1, runNewCheck_spawn_failure print_bad_mounts env _ _ henv]
      exact ⟨rfl, by simp⟩
  refine ⟨hlocal.1, hlocal.2, ?_, ?_⟩
  · intro tenv reg mount_points hm
    exact ⟨_, check_mounts_ok_eq tenv print_bad_mounts reg mount_points hm⟩
  · intro tenv1 tenv2 reg mount_points p r1 r2 h1 h2 hpm hok1 hok2
    rw [check_mounts_ok_eq tenv1 print_bad_mounts reg mount_points h1] at hok1
    rw [check_mounts_ok_eq tenv2 print_bad_mounts reg mount_points h2] at hok2
    injection hok1 with hr1
    injection hok2 with hr2
    subst hr1
    subst hr2
    rw [lookup_fanout, lookup_fanout, hpm]

theorem spawn_failure_local_witness :
    (advance false ⟨.exited ⟨some 0, none⟩, .spawnFailure, 5⟩
        (MountStatus.CheckFailed 7)).1 = MountStatus.CheckFailed 7 :=
  (spawn_failure_is_local_and_contained false
    ⟨.exited ⟨some 0, none⟩, .spawnFailure, 5⟩ (MountStatus.CheckFailed 7) rfl
    (fun _ _ hst => nomatch hst)).1

/-- C9: a CheckRunning mountpoint whose try_wait query itself errors logs
the error and still launches a new check in the same tick, replacing the
status with the outcome of the new check even though the old handle was
never confirmed exited. -/
theorem advance_query_error_relaunches
    (print_bad_mounts : Bool) (env : MountEnv) (process start_time : Nat)
    (msg : String) (snew : MountStatus)
    (h : env.tryWait = TryWaitResult.queryError msg)
    (hc : (check_mount env.now env.checkEvent).1 = .ok snew) :
    (advance print_bad_mounts env (.CheckRunning process start_time)).1 = snew
    ∧ Event.logStalledCheckError (env.now - start_time)
        ∈ (advance print_bad_mounts env (.CheckRunning process start_time)).2
    ∧ Event.spawn ∈ (advance print_bad_mounts env (.CheckRunning process start_time)).2 := by
  have hspawn0 := spawn_mem_check_mount env.now env.checkEvent
  rcases hcm : check_mount env.now env.checkEvent with ⟨res, cevs⟩
  rw [hcm] at hc hspawn0
  simp only at hc hspawn0
  subst hc
  unfold advance
  rw [h]
  unfold runNewCheck
  rw [hcm]
  refine ⟨rfl, by simp, by simp [hspawn0]⟩

theorem advance_query_error_witness :
    (advance false ⟨.queryError "oops", .exited ⟨some 0, none⟩, 10⟩
        (.CheckRunning 41 2)).1 = MountStatus.Alive :=
  (advance_query_error_relaunches false
    ⟨.queryError "oops", .exited ⟨some 0, none⟩, 10⟩ 41 2
    "oops" MountStatus.Alive rfl rfl).1

end MountStatusMonitor
